import Mathlib

/-!
Verification of the stock-monitor ranking / rotation / scheduling core

Shallow embedding of the sector-analysis pipeline of the `stock-monitor`
repository (`src/analyzer.py`, `src/multi_market_scheduler.py`) and proofs of
the specification claims about it.

Modelling conventions:
* pandas `DataFrame`s are modelled as a list of column names together with a
  list of rows, each row a list of cells.
* Cell values are rationals (`Val.num`), strings (`Val.str`) or the missing
  value `NaN` (`Val.na`).  Python floats are modelled as rationals.
* `df.sort_values(col, ascending=False)` is modelled after pandas `nargsort`:
  the row list is reversed, sorted ascending with a stable sort, and reversed
  again (`pandasSortDesc` below).  numpy's argsort is modelled as stable,
  which is its behaviour on the small per-day sector tables this pipeline
  handles.  The `NaN`-last placement of pandas is not modelled; the theorems
  below only exercise `NaN`-free numeric sort columns.
* A `None` argument for a frame is an `Option.none`.
-/

namespace StockMonitor

/-- A pandas cell: a numeric value, a string, or the missing value `NaN`. -/
inductive Val where
  | num (q : ℚ)
  | str (s : String)
  | na
deriving DecidableEq

/-- Comparison key of a cell, as used by a numeric `sort_values` column.
Non-numeric cells are given key `0`; the theorems only exercise numeric
columns, where this function is exactly the cell's value. -/
def Val.key : Val → ℚ
  | Val.num q => q
  | Val.str _ => 0
  | Val.na => 0

/-- A pandas `DataFrame`: named columns and a list of rows. -/
structure DataFrame where
  cols : List String
  rows : List (List Val)
deriving DecidableEq

/-- Model of `df.empty` in pandas: some axis has length zero. -/
def DataFrame.isEmptyDF (df : DataFrame) : Bool :=
  df.rows.isEmpty || df.cols.isEmpty

/-- Model of `pd.DataFrame()`: the empty frame. -/
def emptyDF : DataFrame := ⟨[], []⟩

/-- Cell of a row at column index `i` (missing cells read as `NaN`). -/
def cell (row : List Val) (i : Nat) : Val := row.getD i Val.na

/-- Sort key of the cell in column `i` of a row. -/
def keyAt (i : Nat) (row : List Val) : ℚ := (cell row i).key

/-! ## The pandas descending sort model

`df.sort_values(col, ascending=False)` goes through pandas `nargsort`, which
reverses the values, argsorts them ascending, and reverses the resulting
indexer.  With a stable underlying argsort this is `pandasSortDesc`.  The
specification instead describes a direct stable descending sort
(`stableSortDesc`).  `pandasSortDesc_eq_stableSortDesc` proves the two agree,
which is the content of the spec's "ties keep relative input order" sentence.
-/

variable {α : Type}

/-- The ascending comparison pulled back along a key function. -/
def keyLE (key : α → ℚ) (a b : α) : Prop := key a ≤ key b

instance (key : α → ℚ) : DecidableRel (keyLE key) :=
  fun a b => inferInstanceAs (Decidable (key a ≤ key b))

/-- The descending comparison pulled back along a key function. -/
def keyGE (key : α → ℚ) (a b : α) : Prop := key b ≤ key a

instance (key : α → ℚ) : DecidableRel (keyGE key) :=
  fun a b => inferInstanceAs (Decidable (key b ≤ key a))

/-- pandas `sort_values(ascending=False)` (`nargsort`): reverse, stable
ascending sort, reverse. -/
def pandasSortDesc (key : α → ℚ) (l : List α) : List α :=
  (List.insertionSort (keyLE key) l.reverse).reverse

/-- The specification's sort: stable descending sort, ties keeping their
relative input order. -/
def stableSortDesc (key : α → ℚ) (l : List α) : List α :=
  List.insertionSort (keyGE key) l

/-- Insertion of an element into an ascending list *after* all elements of
equal key (the mirror image of `List.orderedInsert`). -/
def insAfter (key : α → ℚ) (a : α) : List α → List α
  | [] => [a]
  | y :: ys => if key a < key y then a :: y :: ys else y :: insAfter key a ys

theorem insAfter_nil (key : α → ℚ) (a : α) : insAfter key a [] = [a] := rfl

theorem insAfter_cons (key : α → ℚ) (a y : α) (ys : List α) :
    insAfter key a (y :: ys)
      = if key a < key y then a :: y :: ys else y :: insAfter key a ys := rfl

theorem orderedInsert_cons (r : α → α → Prop) [DecidableRel r] (c y : α)
    (ys : List α) :
    List.orderedInsert r c (y :: ys)
      = if r c y then c :: y :: ys else y :: List.orderedInsert r c ys := rfl

theorem orderedInsert_insAfter (key : α → ℚ) (a c : α) :
    ∀ m : List α,
      List.orderedInsert (keyLE key) c (insAfter key a m)
        = insAfter key a (List.orderedInsert (keyLE key) c m)
  | [] => by
    rcases le_or_lt (key c) (key a) with h | h
    · simp [insAfter_nil, insAfter_cons, orderedInsert_cons, keyLE, h,
        not_lt.mpr h]
    · simp [insAfter_nil, insAfter_cons, orderedInsert_cons, keyLE,
        not_le.mpr h, h]
  | y :: ys => by
    have ih := orderedInsert_insAfter key a c ys
    by_cases h1 : key a < key y
    · by_cases h2 : key c ≤ key y
      · rcases le_or_lt (key c) (key a) with h3 | h3
        · simp [insAfter_cons, orderedInsert_cons, keyLE, h1, h2, h3,
            not_lt.mpr h3]
        · simp [insAfter_cons, orderedInsert_cons, keyLE, h1, h2, h3,
            not_le.mpr h3]
      · have hac : ¬ key c ≤ key a := not_le.mpr (h1.trans (not_le.mp h2))
        simp [insAfter_cons, orderedInsert_cons, keyLE, h1, h2, hac]
    · by_cases h2 : key c ≤ key y
      · have hac : ¬ key a < key c := not_lt.mpr (h2.trans (not_lt.mp h1))
        simp [insAfter_cons, orderedInsert_cons, keyLE, h1, h2, hac]
      · simp [insAfter_cons, orderedInsert_cons, keyLE, h1, h2, ih]

theorem insertionSort_append_eq_foldr (r : α → α → Prop) [DecidableRel r] :
    ∀ s t : List α,
      List.insertionSort r (s ++ t)
        = s.foldr (fun x acc => List.orderedInsert r x acc)
            (List.insertionSort r t)
  | [], _ => rfl
  | c :: s, t => by
    have ih := insertionSort_append_eq_foldr r s t
    simp only [List.cons_append, List.insertionSort, List.foldr_cons]
    rw [← ih]
    rfl

theorem foldr_orderedInsert_singleton (key : α → ℚ) (a : α) :
    ∀ s : List α,
      s.foldr (fun x acc => List.orderedInsert (keyLE key) x acc) [a]
        = insAfter key a (List.insertionSort (keyLE key) s)
  | [] => rfl
  | c :: s => by
    simp only [List.foldr_cons, List.insertionSort,
      foldr_orderedInsert_singleton key a s]
    exact orderedInsert_insAfter key a c (List.insertionSort (keyLE key) s)

theorem orderedInsert_append_of_forall_not (r : α → α → Prop) [DecidableRel r]
    (a : α) :
    ∀ (zs ws : List α), (∀ z ∈ zs, ¬ r a z) →
      List.orderedInsert r a (zs ++ ws) = zs ++ List.orderedInsert r a ws
  | [], _, _ => rfl
  | z :: zs, ws, h => by
    have hz : ¬ r a z := h z (List.mem_cons_self z zs)
    have ih := orderedInsert_append_of_forall_not r a zs ws
      (fun x hx => h x (List.mem_cons_of_mem z hx))
    simp only [List.cons_append, orderedInsert_cons, if_neg hz]
    rw [ih]

theorem orderedInsert_append_of_exists (r : α → α → Prop) [DecidableRel r]
    (a : α) :
    ∀ (zs ws : List α), (∃ z ∈ zs, r a z) →
      List.orderedInsert r a (zs ++ ws) = List.orderedInsert r a zs ++ ws
  | [], _, h => absurd h (by simp)
  | z :: zs, ws, h => by
    by_cases hz : r a z
    · simp [List.cons_append, orderedInsert_cons, if_pos hz]
    · obtain ⟨w, hw, hrw⟩ := h
      rcases List.mem_cons.mp hw with rfl | hw'
      · exact absurd hrw hz
      · have ih := orderedInsert_append_of_exists r a zs ws ⟨w, hw', hrw⟩
        simp only [List.cons_append, orderedInsert_cons, if_neg hz]
        rw [ih]

theorem reverse_insAfter (key : α → ℚ) (a : α) :
    ∀ m : List α, m.Pairwise (keyLE key) →
      (insAfter key a m).reverse = List.orderedInsert (keyGE key) a m.reverse
  | [], _ => rfl
  | y :: ys, hp => by
    have hy : ∀ z ∈ ys, keyLE key y z := (List.pairwise_cons.mp hp).1
    have hys : ys.Pairwise (keyLE key) := (List.pairwise_cons.mp hp).2
    by_cases h1 : key a < key y
    · have hpass : ∀ z ∈ ys.reverse, ¬ keyGE key a z := by
        intro z hz
        have := hy z (List.mem_reverse.mp hz)
        simp only [keyLE] at this
        simp only [keyGE, not_le]
        exact lt_of_lt_of_le h1 this
      simp only [insAfter, if_pos h1, List.reverse_cons]
      rw [orderedInsert_append_of_forall_not (keyGE key) a ys.reverse [y] hpass]
      simp only [List.orderedInsert, keyGE, if_neg (not_le.mpr h1)]
      simp [List.append_assoc]
    · have hya : key y ≤ key a := not_lt.mp h1
      simp only [insAfter, if_neg h1, List.reverse_cons]
      rw [reverse_insAfter key a ys hys]
      by_cases h2 : ∃ z ∈ ys.reverse, keyGE key a z
      · rw [orderedInsert_append_of_exists (keyGE key) a ys.reverse [y] h2]
      · push_neg at h2
        have hend : List.orderedInsert (keyGE key) a ys.reverse
            = ys.reverse ++ [a] := by
          have h3 := orderedInsert_append_of_forall_not (keyGE key) a
            ys.reverse [] h2
          simpa using h3
        rw [orderedInsert_append_of_forall_not (keyGE key) a ys.reverse [y] h2,
          hend]
        simp [orderedInsert_cons, keyGE, hya]

theorem pairwise_insertionSort_keyLE (key : α → ℚ) (m : List α) :
    (List.insertionSort (keyLE key) m).Pairwise (keyLE key) := by
  have htot : IsTotal α (keyLE key) := ⟨fun a b => le_total (key a) (key b)⟩
  have htrans : IsTrans α (keyLE key) :=
    ⟨fun a b c hab hbc => le_trans hab hbc⟩
  exact List.sorted_insertionSort (keyLE key) m

/-- The pandas descending sort (reverse, stable ascending sort, reverse)
is the direct stable descending sort: ties keep relative input order. -/
theorem pandasSortDesc_eq_stableSortDesc (key : α → ℚ) :
    ∀ l : List α, pandasSortDesc key l = stableSortDesc key l
  | [] => rfl
  | a :: t => by
    simp only [pandasSortDesc, stableSortDesc, List.reverse_cons]
    rw [insertionSort_append_eq_foldr (keyLE key) t.reverse [a]]
    have h1 : List.insertionSort (keyLE key) [a] = [a] := rfl
    rw [h1, foldr_orderedInsert_singleton key a t.reverse]
    rw [reverse_insAfter key a _ (pairwise_insertionSort_keyLE key t.reverse)]
    have ih := pandasSortDesc_eq_stableSortDesc key t
    simp only [pandasSortDesc, stableSortDesc] at ih
    rw [ih, List.insertionSort]

theorem pandasSortDesc_length (key : α → ℚ) (l : List α) :
    (pandasSortDesc key l).length = l.length := by
  rw [pandasSortDesc_eq_stableSortDesc]
  exact (List.perm_insertionSort (keyGE key) l).length_eq

/-! ## `SectorAnalyzer.rank_by_inflow` (analyzer.py lines 21-55) -/

/-- Python substring membership on character lists (`needle in haystack`),
prefix test. -/
def hasPrefixList : List Char → List Char → Bool
  | [], _ => true
  | _ :: _, [] => false
  | c :: cs, d :: ds => c = d && hasPrefixList cs ds

/-- Python substring membership on character lists (`needle in haystack`). -/
def containsList (n : List Char) : List Char → Bool
  | [] => n.isEmpty
  | d :: ds => hasPrefixList n (d :: ds) || containsList n ds

/-- Python `needle in haystack` on strings (case-sensitive substring test). -/
def containsSub (needle hay : String) : Bool :=
  containsList needle.data hay.data

/-- The column-scan of `rank_by_inflow`'s fallback branch:
first column whose name contains the substring `净流入` or `inflow`
(Python's case-sensitive `in`). -/
def inflowColScan (cols : List String) : Option Nat :=
  cols.findIdx? (fun c => containsSub "净流入" c || containsSub "inflow" c)

/-- The rank cell for 0-based position `n`: the rational `n + 1`.
(Stated via `mkRat` so that concrete witnesses evaluate by kernel
reduction; `rankVal_eq` gives the arithmetic form.) -/
def rankVal (n : Nat) : Val := Val.num (mkRat (Int.ofNat (n + 1)) 1)

theorem rankVal_eq (n : Nat) : rankVal n = Val.num ((n : ℚ) + 1) := by
  simp only [rankVal, Rat.mkRat_one]
  norm_cast

/-- Model of `df_sorted['rank'] = range(1, len(df_sorted) + 1)`: assign the 1-based
position into a `rank` column (overwriting an existing one, appending
otherwise — pandas column assignment). -/
def addRank (cols : List String) (rows : List (List Val)) :
    List String × List (List Val) :=
  match cols.findIdx? (fun c => c = "rank") with
  | some j =>
    (cols, rows.enum.map (fun p => p.2.set j (rankVal p.1)))
  | none =>
    (cols ++ ["rank"], rows.enum.map (fun p => p.2 ++ [rankVal p.1]))

/-- Embedding of `SectorAnalyzer.rank_by_inflow(df, top_n)`: sort by `main_inflow`
descending (falling back to the first inflow-named column, or no sort at
all), assign 1-based ranks over the full sorted set, return the first
`top_n` rows. -/
def rankByInflow (df? : Option DataFrame) (top_n : Nat) : DataFrame :=
  match df? with
  | none => emptyDF
  | some df =>
    if df.isEmptyDF then emptyDF
    else
      let sortedRows :=
        match df.cols.findIdx? (fun c => c = "main_inflow") with
        | some i => pandasSortDesc (keyAt i) df.rows
        | none =>
          match inflowColScan df.cols with
          | some i => pandasSortDesc (keyAt i) df.rows
          | none => df.rows
      let rc := addRank df.cols sortedRows
      ⟨rc.1, rc.2.take top_n⟩

/-- Reference definition of claim C2, following the spec's words: stable
descending sort on `main_inflow` (ties keep relative input order), annotate
every row of the full sorted set with its 1-based position as `rank`, then
return only the first `top_n` rows. -/
def rankByInflowRef (df : DataFrame) (top_n : Nat) : DataFrame :=
  match df.cols.findIdx? (fun c => c = "main_inflow") with
  | some i =>
    let sorted := stableSortDesc (keyAt i) df.rows
    ⟨df.cols ++ ["rank"],
      (sorted.enum.map (fun p => p.2 ++ [rankVal p.1])).take top_n⟩
  | none => emptyDF

/-- Reference definition of the amended claim C9, following its words:
for a table without `main_inflow`, rank by the first column whose name
contains (case-sensitively) `净流入` or `inflow`; if none exists, keep the
rows in their original order; either way append the 1-based rank column and
return the first `top_n` rows. -/
def rankByInflowFallbackRef (df : DataFrame) (top_n : Nat) : DataFrame :=
  match inflowColScan df.cols with
  | some i =>
    let sorted := stableSortDesc (keyAt i) df.rows
    ⟨df.cols ++ ["rank"],
      (sorted.enum.map (fun p => p.2 ++ [rankVal p.1])).take top_n⟩
  | none =>
    ⟨df.cols ++ ["rank"],
      (df.rows.enum.map (fun p => p.2 ++ [rankVal p.1])).take top_n⟩

/-- The column scan claim C9 literally describes: case-insensitive keyword
match.  Used only to exhibit the counterexample to the claim as stated. -/
def inflowColScanCI (cols : List String) : Option Nat :=
  cols.findIdx?
    (fun c => containsSub "净流入" c
      || containsSub "inflow" (String.mk (c.data.map Char.toLower)))

/-- The behaviour claim C9 literally describes for a table without a
`main_inflow` column (case-insensitive column scan). -/
def rankByInflowClaimCI (df : DataFrame) (top_n : Nat) : DataFrame :=
  match inflowColScanCI df.cols with
  | some i =>
    let sorted := stableSortDesc (keyAt i) df.rows
    ⟨df.cols ++ ["rank"],
      (sorted.enum.map (fun p => p.2 ++ [rankVal p.1])).take top_n⟩
  | none =>
    ⟨df.cols ++ ["rank"],
      (df.rows.enum.map (fun p => p.2 ++ [rankVal p.1])).take top_n⟩

theorem findIdx?_eq_none_of_not_mem {name : String} {cols : List String}
    (h : name ∉ cols) : cols.findIdx? (fun c => c = name) = none := by
  rw [List.findIdx?_eq_none_iff]
  intro x hx
  by_contra hcontra
  simp only [Bool.not_eq_true, decide_eq_false_iff_not] at hcontra
  push_neg at hcontra
  exact h (hcontra ▸ hx)

theorem cols_ne_nil_of_findIdx? {name : String} {cols : List String} {i : Nat}
    (h : cols.findIdx? (fun c => c = name) = some i) : cols ≠ [] := by
  intro hnil
  rw [hnil] at h
  simp at h

/-! ## `SectorAnalyzer.detect_rotation` (analyzer.py lines 57-116) -/

/-- A rotation signal, one per sector newly entering the TOP10. -/
structure Signal where
  sector_name : Val
  yesterday_rank : Val
  signal_type : String
deriving DecidableEq

/-- Column used for sector names: `sector_name` if present, else `name`
(the `if/elif` branch of `detect_rotation`). -/
def sectorColIdx (df : DataFrame) : Option Nat :=
  match df.cols.findIdx? (fun c => c = "sector_name") with
  | some i => some i
  | none => df.cols.findIdx? (fun c => c = "name")

/-- Model of `row.get('rank', idx + 1)`: the `rank` cell when the frame has a `rank`
column, else the 1-based row position. -/
def rankCellOf (df : DataFrame) (idx : Nat) (row : List Val) : Val :=
  match df.cols.findIdx? (fun c => c = "rank") with
  | some ir => cell row ir
  | none => rankVal idx

/-- The `yesterday_ranks` dict: iterating all rows of yesterday's frame,
binding each sector name to its rank cell (later rows overwrite earlier
ones, as in a Python dict). -/
def yesterdayRanks (df : DataFrame) (iy : Nat) : List (Val × Val) :=
  df.rows.enum.map (fun p => (cell p.2 iy, rankCellOf df p.1 p.2))

/-- Lookup in an association list where later bindings overwrite earlier
ones (Python dict semantics for `yesterdayRanks`). -/
def lookupLast (l : List (Val × Val)) (k : Val) : Option Val :=
  (l.reverse.find? (fun p => p.1 = k)).map (fun p => p.2)

/-- Embedding of `SectorAnalyzer.detect_rotation(today_df, yesterday_df)`: sectors in
today's first 10 rows but not yesterday's first 10 rows, each with its rank
from yesterday's full table (default `">10"`).  Python's sets are modelled
as deduplicated lists; all claims proved about the result are
order-insensitive, matching the spec's "output order unspecified". -/
def detectRotation (today? yesterday? : Option DataFrame) : List Signal :=
  match today? with
  | none => []
  | some today =>
    if today.isEmptyDF then []
    else
      match yesterday? with
      | none => []
      | some yesterday =>
        if yesterday.isEmptyDF then []
        else
          let todaySectors : List Val :=
            match sectorColIdx today with
            | some i => ((today.rows.take 10).map (fun r => cell r i)).dedup
            | none => []
          let ySectors : List Val :=
            match sectorColIdx yesterday with
            | some i => (yesterday.rows.take 10).map (fun r => cell r i)
            | none => []
          let yRanks : List (Val × Val) :=
            match sectorColIdx yesterday with
            | some i => yesterdayRanks yesterday i
            | none => []
          let newSectors := todaySectors.filter (fun s => decide (s ∉ ySectors))
          newSectors.map (fun s =>
            { sector_name := s
              yesterday_rank := (lookupLast yRanks s).getD (Val.str ">10")
              signal_type := "新进入TOP10" })

/-! ## Claim C2: `rank_by_inflow` against its reference definition -/

/-- C2: on a non-empty table with a `main_inflow` column (and no
pre-existing `rank` column), `rank_by_inflow` equals the reference
definition: stable descending sort (ties keep input order), 1-based ranks
assigned over the full sorted set before truncation, first `top_n` rows
returned. -/
theorem rankByInflow_eq_ref (df : DataFrame) (top_n i : Nat)
    (hne : df.rows ≠ [])
    (hmain : df.cols.findIdx? (fun c => c = "main_inflow") = some i)
    (hrank : "rank" ∉ df.cols) :
    rankByInflow (some df) top_n = rankByInflowRef df top_n := by
  have hcols : df.cols ≠ [] := cols_ne_nil_of_findIdx? hmain
  have hempty : df.isEmptyDF = false := by
    simp [DataFrame.isEmptyDF, hne, hcols]
  simp only [rankByInflow, rankByInflowRef, hmain, hempty, Bool.false_eq_true,
    if_false]
  simp [addRank, findIdx?_eq_none_of_not_mem hrank,
    pandasSortDesc_eq_stableSortDesc]

/-- Witness for C2, on the spec's own stability example
`[{A,100},{B,100},{C,50}]`: ranks 1,2 go to A,B in original relative order
and C gets rank 3. -/
theorem rankByInflow_eq_ref_witness :
    rankByInflow (some ⟨["sector_name", "main_inflow"],
        [[Val.str "A", Val.num 100], [Val.str "B", Val.num 100],
         [Val.str "C", Val.num 50]]⟩) 10
      = rankByInflowRef ⟨["sector_name", "main_inflow"],
        [[Val.str "A", Val.num 100], [Val.str "B", Val.num 100],
         [Val.str "C", Val.num 50]]⟩ 10 ∧
    rankByInflow (some ⟨["sector_name", "main_inflow"],
        [[Val.str "A", Val.num 100], [Val.str "B", Val.num 100],
         [Val.str "C", Val.num 50]]⟩) 10
      = ⟨["sector_name", "main_inflow", "rank"],
         [[Val.str "A", Val.num 100, Val.num 1],
          [Val.str "B", Val.num 100, Val.num 2],
          [Val.str "C", Val.num 50, Val.num 3]]⟩ :=
  ⟨rankByInflow_eq_ref _ 10 1 (by decide) (by decide) (by decide), by decide⟩

/-! ## Claim C9: the fallback column scan is case-SENSITIVE -/

/-- Counterexample to C9 as stated: on a table whose only inflow-like column
is named `Inflow` (matching the claimed case-insensitive scan but not the
code's case-sensitive `in`), the code returns the rows unsorted while the
claim predicts a descending sort by that column. -/
theorem rankByInflow_CI_counterexample :
    rankByInflow (some ⟨["sector_name", "Inflow"],
        [[Val.str "A", Val.num 1], [Val.str "B", Val.num 2]]⟩) 10
      ≠ rankByInflowClaimCI ⟨["sector_name", "Inflow"],
        [[Val.str "A", Val.num 1], [Val.str "B", Val.num 2]]⟩ 10 := by
  decide

/-- Amended C9: for a non-empty table without `main_inflow` (and without a
pre-existing `rank` column), `rank_by_inflow` sorts by the first column
whose name contains the substring `净流入` or `inflow` under Python's
case-SENSITIVE `in`, and otherwise keeps the rows in their original order;
either way the 1-based rank column is appended over the full set and the
first `top_n` rows are returned. -/
theorem rankByInflow_fallback_amended (df : DataFrame) (top_n : Nat)
    (hne : df.rows ≠ []) (hcols : df.cols ≠ [])
    (hmain : "main_inflow" ∉ df.cols)
    (hrank : "rank" ∉ df.cols) :
    rankByInflow (some df) top_n = rankByInflowFallbackRef df top_n := by
  have hempty : df.isEmptyDF = false := by
    simp [DataFrame.isEmptyDF, hne, hcols]
  simp only [rankByInflow, rankByInflowFallbackRef,
    findIdx?_eq_none_of_not_mem hmain, hempty, Bool.false_eq_true, if_false]
  cases hscan : inflowColScan df.cols with
  | some i =>
    simp [hscan, addRank, findIdx?_eq_none_of_not_mem hrank,
      pandasSortDesc_eq_stableSortDesc]
  | none =>
    simp [hscan, addRank, findIdx?_eq_none_of_not_mem hrank]

/-- Witness for the amended C9: a column named `totalinflow` is matched by
the case-sensitive scan and ranked by. -/
theorem rankByInflow_fallback_amended_witness :
    rankByInflow (some ⟨["sector_name", "totalinflow"],
        [[Val.str "A", Val.num 1], [Val.str "B", Val.num 2]]⟩) 10
      = rankByInflowFallbackRef ⟨["sector_name", "totalinflow"],
        [[Val.str "A", Val.num 1], [Val.str "B", Val.num 2]]⟩ 10 ∧
    rankByInflow (some ⟨["sector_name", "totalinflow"],
        [[Val.str "A", Val.num 1], [Val.str "B", Val.num 2]]⟩) 10
      = ⟨["sector_name", "totalinflow", "rank"],
         [[Val.str "B", Val.num 2, Val.num 1],
          [Val.str "A", Val.num 1, Val.num 2]]⟩ :=
  ⟨rankByInflow_fallback_amended _ 10 (by decide) (by decide) (by decide)
      (by decide),
    by decide⟩

/-! ## Claim C10: empty / None inputs are safe -/

/-- C10: `rank_by_inflow` returns an empty frame on a `None` or empty input
for any `top_n`, and `detect_rotation` returns `[]` whenever either input is
`None` or empty. -/
theorem empty_inputs_safe (top_n : Nat) (df : DataFrame) (x : Option DataFrame)
    (hdf : df.isEmptyDF = true) :
    rankByInflow none top_n = emptyDF ∧
    rankByInflow (some df) top_n = emptyDF ∧
    detectRotation none x = [] ∧
    detectRotation x none = [] ∧
    detectRotation (some df) x = [] ∧
    detectRotation x (some df) = [] := by
  refine ⟨rfl, by simp [rankByInflow, hdf], rfl, ?_, ?_, ?_⟩
  · cases x with
    | none => rfl
    | some y =>
      simp only [detectRotation]
      split
      · rfl
      · rfl
  · simp [detectRotation, hdf]
  · cases x with
    | none => rfl
    | some y =>
      simp only [detectRotation]
      split
      · rfl
      · simp [hdf]

/-- Witness for C10 at the empty frame. -/
theorem empty_inputs_safe_witness :
    rankByInflow (some emptyDF) 10 = emptyDF ∧
    detectRotation (some emptyDF) (some emptyDF) = [] :=
  ⟨(empty_inputs_safe 10 emptyDF (some emptyDF) (by decide)).2.1,
    (empty_inputs_safe 10 emptyDF (some emptyDF) (by decide)).2.2.2.2.1⟩

/-! ## Claim C1: rotation signals -/

theorem detectRotation_unfold (today yesterday : DataFrame) (it iy : Nat)
    (hto : today.rows ≠ []) (hyo : yesterday.rows ≠ [])
    (hit : today.cols.findIdx? (fun c => c = "sector_name") = some it)
    (hiy : yesterday.cols.findIdx? (fun c => c = "sector_name") = some iy) :
    detectRotation (some today) (some yesterday)
      = ((((today.rows.take 10).map (fun r => cell r it)).dedup.filter
            (fun s => decide
              (s ∉ (yesterday.rows.take 10).map (fun r => cell r iy)))).map
          (fun s =>
            { sector_name := s
              yesterday_rank :=
                (lookupLast (yesterdayRanks yesterday iy) s).getD
                  (Val.str ">10")
              signal_type := "新进入TOP10" })) := by
  have het : today.isEmptyDF = false := by
    simp [DataFrame.isEmptyDF, hto, cols_ne_nil_of_findIdx? hit]
  have hey : yesterday.isEmptyDF = false := by
    simp [DataFrame.isEmptyDF, hyo, cols_ne_nil_of_findIdx? hiy]
  simp only [detectRotation, het, hey, Bool.false_eq_true, if_false,
    sectorColIdx, hit, hiy]

/-- C1: for non-empty ranked frames carrying a `sector_name` column and a
`rank` column holding each row's 1-based position, `detect_rotation` emits
exactly one signal per sector name among today's first 10 rows but absent
from yesterday's first 10 rows (and none for any other name); each signal
carries the sector's rank from anywhere in yesterday's full table when the
name occurs there, else the sentinel `">10"`. -/
theorem detectRotation_spec (today yesterday : DataFrame)
    (it irt iy ir : Nat)
    (hto : today.rows ≠ []) (hyo : yesterday.rows ≠ [])
    (hit : today.cols.findIdx? (fun c => c = "sector_name") = some it)
    (hirt : today.cols.findIdx? (fun c => c = "rank") = some irt)
    (hrt : ∀ p ∈ today.rows.enum, cell p.2 irt = rankVal p.1)
    (hiy : yesterday.cols.findIdx? (fun c => c = "sector_name") = some iy)
    (hir : yesterday.cols.findIdx? (fun c => c = "rank") = some ir)
    (hry : ∀ p ∈ yesterday.rows.enum, cell p.2 ir = rankVal p.1) :
    (∀ v : Val,
      ((detectRotation (some today) (some yesterday)).map
          Signal.sector_name).count v
        = if v ∈ (today.rows.take 10).map (fun r => cell r it) ∧
             v ∉ (yesterday.rows.take 10).map (fun r => cell r iy)
          then 1 else 0)
    ∧ (∀ sig ∈ detectRotation (some today) (some yesterday),
        (sig.yesterday_rank = Val.str ">10" ∧
          sig.sector_name ∉ yesterday.rows.map (fun r => cell r iy))
        ∨ (∃ p ∈ yesterday.rows.enum, cell p.2 iy = sig.sector_name ∧
            sig.yesterday_rank = rankVal p.1)) := by
  have hDet := detectRotation_unfold today yesterday it iy hto hyo hit hiy
  constructor
  · intro v
    rw [hDet, List.map_map]
    have hcomp :
        (Signal.sector_name ∘ fun s =>
          ({ sector_name := s
             yesterday_rank :=
               (lookupLast (yesterdayRanks yesterday iy) s).getD
                 (Val.str ">10")
             signal_type := "新进入TOP10" } : Signal)) = id := rfl
    rw [hcomp, List.map_id]
    have hnodup : (((today.rows.take 10).map (fun r => cell r it)).dedup.filter
        (fun s => decide
          (s ∉ (yesterday.rows.take 10).map (fun r => cell r iy)))).Nodup :=
      List.Nodup.filter _
        (List.nodup_dedup ((today.rows.take 10).map (fun r => cell r it)))
    by_cases hmem : v ∈ (((today.rows.take 10).map
        (fun r => cell r it)).dedup.filter
        (fun s => decide
          (s ∉ (yesterday.rows.take 10).map (fun r => cell r iy))))
    · rw [List.count_eq_one_of_mem hnodup hmem]
      have h1 := List.mem_dedup.mp (List.mem_filter.mp hmem).1
      have h2 := (List.mem_filter.mp hmem).2
      simp only [decide_eq_true_eq] at h2
      rw [if_pos ⟨h1, h2⟩]
    · rw [List.count_eq_zero_of_not_mem hmem]
      by_cases hcond : v ∈ (today.rows.take 10).map (fun r => cell r it) ∧
          v ∉ (yesterday.rows.take 10).map (fun r => cell r iy)
      · exact absurd (List.mem_filter.mpr
          ⟨List.mem_dedup.mpr hcond.1, by simpa using hcond.2⟩) hmem
      · rw [if_neg hcond]
  · intro sig hsig
    rw [hDet] at hsig
    obtain ⟨s, hsmem, rfl⟩ := List.mem_map.mp hsig
    have hfst : ((yesterdayRanks yesterday iy).map Prod.fst)
        = yesterday.rows.map (fun r => cell r iy) := by
      calc ((yesterday.rows.enum.map (fun p =>
              (cell p.2 iy, rankCellOf yesterday p.1 p.2))).map Prod.fst)
          = yesterday.rows.enum.map (fun p => cell p.2 iy) := by
            rw [List.map_map]
            rfl
        _ = (yesterday.rows.enum.map Prod.snd).map (fun r => cell r iy) := by
            rw [List.map_map]
            rfl
        _ = yesterday.rows.map (fun r => cell r iy) := by
            rw [List.enum_map_snd]
    cases hfind : ((yesterdayRanks yesterday iy).reverse.find?
        (fun p => decide (p.1 = s))) with
    | none =>
      left
      constructor
      · simp [lookupLast, hfind]
      · intro hmem
        rw [← hfst] at hmem
        obtain ⟨pr, hprmem, hpr1⟩ := List.mem_map.mp hmem
        have hnone := List.find?_eq_none.mp hfind pr
          (List.mem_reverse.mpr hprmem)
        simp only [decide_eq_true_eq] at hnone
        exact hnone hpr1
    | some pr =>
      right
      have hpr1 : pr.1 = s := by
        have := List.find?_some hfind
        simpa using this
      have hprmem : pr ∈ yesterdayRanks yesterday iy :=
        List.mem_reverse.mp (List.mem_of_find?_eq_some hfind)
      obtain ⟨p, hpmem, hpeq⟩ := List.mem_map.mp hprmem
      refine ⟨p, hpmem, ?_, ?_⟩
      · show cell p.2 iy = s
        rw [← hpr1, ← hpeq]
      · show (lookupLast (yesterdayRanks yesterday iy) s).getD
            (Val.str ">10") = rankVal p.1
        have hget : (lookupLast (yesterdayRanks yesterday iy) s) = some pr.2 := by
          simp [lookupLast, hfind]
        rw [hget, Option.getD_some, ← hpeq]
        simp only [rankCellOf, hir]
        exact hry p hpmem

/-- Witness for C1: today's top rows are A, B; yesterday's are B, C.
Exactly A is signalled, with sentinel rank `">10"`. -/
theorem detectRotation_spec_witness :
    ((detectRotation
        (some ⟨["sector_name", "rank"],
          [[Val.str "A", Val.num 1], [Val.str "B", Val.num 2]]⟩)
        (some ⟨["sector_name", "rank"],
          [[Val.str "B", Val.num 1], [Val.str "C", Val.num 2]]⟩)).map
      Signal.sector_name).count (Val.str "A") = 1 ∧
    ((detectRotation
        (some ⟨["sector_name", "rank"],
          [[Val.str "A", Val.num 1], [Val.str "B", Val.num 2]]⟩)
        (some ⟨["sector_name", "rank"],
          [[Val.str "B", Val.num 1], [Val.str "C", Val.num 2]]⟩)).map
      Signal.sector_name).count (Val.str "B") = 0 ∧
    detectRotation
        (some ⟨["sector_name", "rank"],
          [[Val.str "A", Val.num 1], [Val.str "B", Val.num 2]]⟩)
        (some ⟨["sector_name", "rank"],
          [[Val.str "B", Val.num 1], [Val.str "C", Val.num 2]]⟩)
      = [{ sector_name := Val.str "A", yesterday_rank := Val.str ">10",
           signal_type := "新进入TOP10" }] := by
  have h := (detectRotation_spec
    ⟨["sector_name", "rank"],
      [[Val.str "A", Val.num 1], [Val.str "B", Val.num 2]]⟩
    ⟨["sector_name", "rank"],
      [[Val.str "B", Val.num 1], [Val.str "C", Val.num 2]]⟩
    0 1 0 1 (by decide) (by decide) (by decide) (by decide) (by decide)
    (by decide) (by decide) (by decide)).1
  refine ⟨?_, ?_, by decide⟩
  · rw [h (Val.str "A")]
    decide
  · rw [h (Val.str "B")]
    decide

/-! ## `SectorAnalyzer.calculate_trend_strength` (analyzer.py lines 233-375)

Python float arithmetic is modelled by exact rationals; `round(x, 2)` is
modelled as round-half-to-even at two decimals on the rational value.
Division is spelled through `ratDiv` (equal to `/`, see `ratDiv_eq_div`) so
that concrete witnesses evaluate by kernel reduction. -/

/-- Exact rational division, written via `mkRat` so it evaluates by kernel
reduction (`Rat.inv` is irreducible).  Division by zero yields zero, as for
`/` on `ℚ`; the pipeline only divides by positive list lengths. -/
def ratDiv (a b : ℚ) : ℚ :=
  if b.num < 0 then mkRat (-(a.num * Int.ofNat b.den)) (a.den * b.num.natAbs)
  else mkRat (a.num * Int.ofNat b.den) (a.den * b.num.natAbs)

theorem ratDiv_eq_div (a b : ℚ) : ratDiv a b = a / b := by
  have ha : (a.num : ℚ) = a * a.den := by
    have hd : ((a.den : ℕ) : ℚ) ≠ 0 := Nat.cast_ne_zero.mpr a.den_nz
    have h1 := div_mul_cancel₀ ((a.num : ℤ) : ℚ) hd
    rw [Rat.num_div_den] at h1
    exact h1.symm
  have hbn : (b.num : ℚ) = b * b.den := by
    have hd : ((b.den : ℕ) : ℚ) ≠ 0 := Nat.cast_ne_zero.mpr b.den_nz
    have h1 := div_mul_cancel₀ ((b.num : ℤ) : ℚ) hd
    rw [Rat.num_div_den] at h1
    exact h1.symm
  unfold ratDiv
  rcases lt_trichotomy b.num 0 with h | h | h
  · have hb : b ≠ 0 := by
      intro hb0
      rw [hb0] at h
      simp at h
    have hden : ((a.den * b.num.natAbs : ℕ) : ℚ) ≠ 0 :=
      Nat.cast_ne_zero.mpr (Nat.mul_ne_zero a.den_nz (by omega))
    rw [if_pos h, Rat.mkRat_eq_div, div_eq_div_iff hden hb]
    have hnatabs : ((b.num.natAbs : ℕ) : ℚ) = -(b.num : ℚ) := by
      rw [Int.cast_natAbs, Int.cast_abs]
      exact abs_of_neg (show ((b.num : ℤ) : ℚ) < 0 by exact_mod_cast h)
    rw [show Int.ofNat b.den = (b.den : ℤ) from rfl]
    push_cast
    rw [hnatabs, ha, hbn]
    ring
  · rw [if_neg (by omega)]
    have hb : b = 0 := by
      rwa [Rat.num_eq_zero] at h
    subst hb
    simp [Rat.mkRat_eq_div]
  · have hb : b ≠ 0 := by
      intro hb0
      rw [hb0] at h
      simp at h
    have hden : ((a.den * b.num.natAbs : ℕ) : ℚ) ≠ 0 :=
      Nat.cast_ne_zero.mpr (Nat.mul_ne_zero a.den_nz (by omega))
    rw [if_neg (by omega), Rat.mkRat_eq_div, div_eq_div_iff hden hb]
    have hnatabs : ((b.num.natAbs : ℕ) : ℚ) = (b.num : ℚ) := by
      rw [Int.cast_natAbs, Int.cast_abs]
      exact abs_of_pos (show (0 : ℚ) < ((b.num : ℤ) : ℚ) by exact_mod_cast h)
    rw [show Int.ofNat b.den = (b.den : ℤ) from rfl]
    push_cast
    rw [hnatabs, ha, hbn]
    ring

/-- Cast from `ℕ` to `ℚ`, via `mkRat` for kernel reduction. -/
def natToRat (n : Nat) : ℚ := mkRat (Int.ofNat n) 1

/-- Python `max`. -/
def ratMax (a b : ℚ) : ℚ := if a ≤ b then b else a

/-- Python `min`. -/
def ratMin (a b : ℚ) : ℚ := if a ≤ b then a else b

/-- Exact rational multiplication via `mkRat` (kernel-evaluable). -/
def ratMul (a b : ℚ) : ℚ := mkRat (a.num * b.num) (a.den * b.den)

/-- Exact rational addition via `mkRat` (kernel-evaluable). -/
def ratAdd (a b : ℚ) : ℚ :=
  mkRat (a.num * Int.ofNat b.den + b.num * Int.ofNat a.den) (a.den * b.den)

/-- Exact rational subtraction via `mkRat` (kernel-evaluable). -/
def ratSub (a b : ℚ) : ℚ :=
  mkRat (a.num * Int.ofNat b.den - b.num * Int.ofNat a.den) (a.den * b.den)

theorem num_eq_mul_den (a : ℚ) : (a.num : ℚ) = a * a.den := by
  have hd : ((a.den : ℕ) : ℚ) ≠ 0 := Nat.cast_ne_zero.mpr a.den_nz
  have h1 := div_mul_cancel₀ ((a.num : ℤ) : ℚ) hd
  rw [Rat.num_div_den] at h1
  exact h1.symm

theorem ratMul_eq_mul (a b : ℚ) : ratMul a b = a * b := by
  have had : ((a.den : ℕ) : ℚ) ≠ 0 := Nat.cast_ne_zero.mpr a.den_nz
  have hbd : ((b.den : ℕ) : ℚ) ≠ 0 := Nat.cast_ne_zero.mpr b.den_nz
  unfold ratMul
  rw [Rat.mkRat_eq_div]
  push_cast
  field_simp
  rw [num_eq_mul_den a, num_eq_mul_den b]
  ring

theorem ratAdd_eq_add (a b : ℚ) : ratAdd a b = a + b := by
  have had : ((a.den : ℕ) : ℚ) ≠ 0 := Nat.cast_ne_zero.mpr a.den_nz
  have hbd : ((b.den : ℕ) : ℚ) ≠ 0 := Nat.cast_ne_zero.mpr b.den_nz
  unfold ratAdd
  rw [Rat.mkRat_eq_div]
  push_cast
  rw [show Int.ofNat b.den = (b.den : ℤ) from rfl,
    show Int.ofNat a.den = (a.den : ℤ) from rfl]
  push_cast
  field_simp
  rw [num_eq_mul_den a, num_eq_mul_den b]
  ring

theorem ratSub_eq_sub (a b : ℚ) : ratSub a b = a - b := by
  have had : ((a.den : ℕ) : ℚ) ≠ 0 := Nat.cast_ne_zero.mpr a.den_nz
  have hbd : ((b.den : ℕ) : ℚ) ≠ 0 := Nat.cast_ne_zero.mpr b.den_nz
  unfold ratSub
  rw [Rat.mkRat_eq_div]
  push_cast
  rw [show Int.ofNat b.den = (b.den : ℤ) from rfl,
    show Int.ofNat a.den = (a.den : ℤ) from rfl]
  push_cast
  field_simp
  rw [num_eq_mul_den a, num_eq_mul_den b]
  ring

/-- Sum of a list of rationals (Python `sum`), via `ratAdd`. -/
def ratSum : List ℚ → ℚ
  | [] => 0
  | x :: xs => ratAdd x (ratSum xs)

theorem ratSum_eq_sum (l : List ℚ) : ratSum l = l.sum := by
  induction l with
  | nil => rfl
  | cons x xs ih => rw [ratSum, ratAdd_eq_add, ih, List.sum_cons]

/-- Floor of a rational. -/
def ratFloor (q : ℚ) : ℤ := q.num.fdiv (Int.ofNat q.den)

/-- Python `round` to an integer: round half to even.  The fractional part
`q − ⌊q⌋ = (q.num.fmod q.den) / q.den` is compared against `1/2` by integer
cross-multiplication. -/
def roundHalfEven (q : ℚ) : ℤ :=
  if 2 * q.num.fmod (Int.ofNat q.den) < Int.ofNat q.den then ratFloor q
  else if Int.ofNat q.den < 2 * q.num.fmod (Int.ofNat q.den) then ratFloor q + 1
  else if ratFloor q % 2 = 0 then ratFloor q else ratFloor q + 1

/-- Python `round(x, 2)` on the exact rational value
(`x * 100` written as the fraction `(100·num)/den`). -/
def round2 (q : ℚ) : ℚ := mkRat (roundHalfEven (mkRat (q.num * 100) q.den)) 100

/-- The rows of the history whose `sector_name` cell (column `isn`) equals
the requested sector (`df[df['sector_name'] == sector_name]`). -/
def trendSectorRows (df : DataFrame) (isn : Nat) (sector : String) :
    List (List Val) :=
  df.rows.filter (fun r => decide (cell r isn = Val.str sector))

/-- The sector's history sorted descending by `date` when that column
exists (`sort_values('date', ascending=False)`); dates are modelled as
numeric cells, `pd.to_datetime` being an order-preserving conversion. -/
def trendSorted (df : DataFrame) (isn : Nat) (sector : String) :
    List (List Val) :=
  match df.cols.findIdx? (fun c => c = "date") with
  | some idt => pandasSortDesc (keyAt idt) (trendSectorRows df isn sector)
  | none => trendSectorRows df isn sector

/-- Model of `recent_data = sector_df.head(days)`: the most recent `days` rows. -/
def trendWindow (df : DataFrame) (isn : Nat) (sector : String) (days : Nat) :
    List (List Val) :=
  (trendSorted df isn sector).take days

/-- The inflow-column priority scan
`for col in ['main_inflow', 'super_large_inflow', '今日主力净流入-净额']`. -/
def inflowColIdxTrend (cols : List String) : Option Nat :=
  match cols.findIdx? (fun c => c = "main_inflow") with
  | some i => some i
  | none =>
    match cols.findIdx? (fun c => c = "super_large_inflow") with
    | some i => some i
    | none => cols.findIdx? (fun c => c = "今日主力净流入-净额")

/-- Model of `[float(x) for x in inflows if pd.notna(x)]`: the numeric cells of
column `i`, `NaN` dropped.  (String cells are also dropped by the model;
the theorems only exercise numeric-or-`NaN` columns, where in Python a
string cell would instead raise inside the surrounding `try`.) -/
def notnaVals (rows : List (List Val)) (i : Nat) : List ℚ :=
  rows.filterMap (fun r =>
    match cell r i with
    | Val.num q => some q
    | Val.str _ => none
    | Val.na => none)

/-- Result record of `calculate_trend_strength`. -/
structure TrendResult where
  trend_score : ℚ
  trend_direction : String
  avg_inflow : ℚ
  consistency : ℚ
  momentum : ℚ
  error : Option String
  data_points : Option Nat
deriving DecidableEq

/-- The neutral result returned on each degraded path, carrying the
explanatory message. -/
def trendErr (msg : String) : TrendResult :=
  { trend_score := 0, trend_direction := "neutral", avg_inflow := 0,
    consistency := 0, momentum := 0, error := some msg, data_points := none }

/-- Embedding of `SectorAnalyzer.calculate_trend_strength(df, sector_name, days)`. -/
def calculateTrendStrength (df : DataFrame) (sector : String) (days : Nat) :
    TrendResult :=
  match df.cols.findIdx? (fun c => c = "sector_name") with
  | none => trendErr "数据中缺少sector_name列"
  | some isn =>
    if (trendSectorRows df isn sector).isEmpty then
      trendErr ("未找到板块 " ++ sector ++ " 的数据")
    else
      let recent := trendWindow df isn sector days
      if recent.length < 2 then trendErr "数据不足，无法计算趋势"
      else
        match inflowColIdxTrend df.cols with
        | none => trendErr "未找到净流入列"
        | some ic =>
          let inflows := notnaVals recent ic
          if inflows.isEmpty then trendErr "无有效数据"
          else
            let n := natToRat inflows.length
            let avg := ratDiv (ratSum inflows) n
            let consistency :=
              ratDiv (natToRat (inflows.filter (fun x => decide (0 < x))).length) n
            let mid := inflows.length / 2
            let momentum :=
              if 0 < mid then
                if ratDiv (ratSum (inflows.take mid)) (natToRat mid) ≠ 0 then
                  ratSub
                    (ratDiv (ratSum (inflows.drop mid))
                      (natToRat (inflows.length - mid)))
                    (ratDiv (ratSum (inflows.take mid)) (natToRat mid))
                else 0
              else 0
            let avgNorm := ratMax (-1) (ratMin 1 (ratDiv avg 100000000))
            let consScore := ratMul (ratSub consistency (mkRat 1 2)) 2
            let momNorm := ratMax (-1) (ratMin 1 (ratDiv momentum 100000000))
            let score :=
              ratMax (-100) (ratMin 100
                (ratAdd (ratAdd (ratMul avgNorm 40) (ratMul consScore 30))
                  (ratMul momNorm 30)))
            let dir :=
              if 20 < score then "up"
              else if score < -20 then "down" else "neutral"
            { trend_score := round2 score, trend_direction := dir,
              avg_inflow := round2 avg, consistency := round2 consistency,
              momentum := round2 momentum, error := none,
              data_points := some recent.length }

theorem trendSorted_length (df : DataFrame) (isn : Nat) (sector : String) :
    (trendSorted df isn sector).length
      = (trendSectorRows df isn sector).length := by
  unfold trendSorted
  cases h : df.cols.findIdx? (fun c => c = "date") with
  | some idt => simp [pandasSortDesc_length]
  | none => rfl

/-- Amended C8: on a history with a `sector_name` column and a
`main_inflow` column whose window holds at least two valid (non-`NaN`)
inflow values, `calculate_trend_strength` returns
* `momentum` = (mean of second half) − (mean of first half) — **except**
  that it is forced to `0` when the first half's mean is exactly `0`
  (the `if first_half != 0` guard in the code),
* `trend_score` = clamp to `[-100, 100]` of
  `40·clamp(avg/1e8) + 30·(consistency − ½)·2 + 30·clamp(momentum/1e8)`
  built from that guarded momentum,
* direction `up`/`down`/`neutral` by the `> 20` / `< −20` thresholds on the
  unrounded score, and the returned numeric fields rounded to two decimals
  (Python `round(x, 2)`). -/
theorem calculateTrendStrength_amended (df : DataFrame) (sector : String)
    (days isn ic : Nat)
    (hsn : df.cols.findIdx? (fun c => c = "sector_name") = some isn)
    (hic : df.cols.findIdx? (fun c => c = "main_inflow") = some ic)
    (h2 : 2 ≤ (notnaVals (trendWindow df isn sector days) ic).length) :
    calculateTrendStrength df sector days =
      (let L := notnaVals (trendWindow df isn sector days) ic
       let avg := ratDiv (ratSum L) (natToRat L.length)
       let consistency :=
         ratDiv (natToRat (L.filter (fun x => decide (0 < x))).length)
           (natToRat L.length)
       let mid := L.length / 2
       let m1 := ratDiv (ratSum (L.take mid)) (natToRat mid)
       let m2 := ratDiv (ratSum (L.drop mid)) (natToRat (L.length - mid))
       let momentum := if m1 = 0 then 0 else ratSub m2 m1
       let score :=
         ratMax (-100) (ratMin 100
           (ratAdd
             (ratAdd (ratMul (ratMax (-1) (ratMin 1 (ratDiv avg 100000000))) 40)
               (ratMul (ratMul (ratSub consistency (mkRat 1 2)) 2) 30))
             (ratMul (ratMax (-1) (ratMin 1 (ratDiv momentum 100000000))) 30)))
       { trend_score := round2 score
         trend_direction :=
           if 20 < score then "up"
           else if score < -20 then "down" else "neutral"
         avg_inflow := round2 avg
         consistency := round2 consistency
         momentum := round2 momentum
         error := none
         data_points := some (trendWindow df isn sector days).length }) := by
  have hLw : (notnaVals (trendWindow df isn sector days) ic).length
      ≤ (trendWindow df isn sector days).length :=
    List.length_filterMap_le _ _
  have hwlen : 2 ≤ (trendWindow df isn sector days).length := le_trans h2 hLw
  have hrows : (trendSectorRows df isn sector).isEmpty = false := by
    have h3 : (trendWindow df isn sector days).length
        ≤ (trendSorted df isn sector).length := by
      unfold trendWindow
      simp
    rw [trendSorted_length] at h3
    rcases hsr : trendSectorRows df isn sector with _ | _
    · rw [hsr] at h3
      simp only [List.length_nil, Nat.le_zero] at h3
      omega
    · rfl
  have hlen : ¬ ((trendWindow df isn sector days).length < 2) := by omega
  have hscan : inflowColIdxTrend df.cols = some ic := by
    simp [inflowColIdxTrend, hic]
  have hinfl : (notnaVals (trendWindow df isn sector days) ic).isEmpty
      = false := by
    rcases hL : notnaVals (trendWindow df isn sector days) ic with _ | _
    · rw [hL] at h2
      simp at h2
    · rfl
  have hmid : 0 < (notnaVals (trendWindow df isn sector days) ic).length / 2 :=
    Nat.div_pos h2 (by norm_num)
  simp only [calculateTrendStrength, hsn, hscan, hrows, Bool.false_eq_true,
    if_false, if_neg hlen, hinfl, if_pos hmid]
  by_cases hm1 : ratDiv
      (ratSum ((notnaVals (trendWindow df isn sector days) ic).take
        ((notnaVals (trendWindow df isn sector days) ic).length / 2)))
      (natToRat ((notnaVals (trendWindow df isn sector days) ic).length / 2))
      = 0
  · rw [if_neg (by simpa using hm1), if_pos hm1]
  · rw [if_pos hm1, if_neg hm1]

set_option maxRecDepth 4000 in
/-- Counterexample to C8 as stated: a two-day window with inflows
`[0, 1e8]` (most recent first).  The first half's mean is `0`, so the code
forces `momentum = 0` (score `20`, direction `neutral`), while the claim's
unguarded formula gives momentum `1e8` (score `50`, direction `up`). -/
theorem calculateTrendStrength_counterexample :
    (calculateTrendStrength
        ⟨["sector_name", "date", "main_inflow"],
          [[Val.str "S", Val.num 1, Val.num 0],
           [Val.str "S", Val.num 0, Val.num 100000000]]⟩ "S" 5).momentum = 0 ∧
    (calculateTrendStrength
        ⟨["sector_name", "date", "main_inflow"],
          [[Val.str "S", Val.num 1, Val.num 0],
           [Val.str "S", Val.num 0, Val.num 100000000]]⟩ "S" 5).trend_score
      = 20 ∧
    (calculateTrendStrength
        ⟨["sector_name", "date", "main_inflow"],
          [[Val.str "S", Val.num 1, Val.num 0],
           [Val.str "S", Val.num 0, Val.num 100000000]]⟩
        "S" 5).trend_direction = "neutral" ∧
    (let L := notnaVals (trendWindow
        ⟨["sector_name", "date", "main_inflow"],
          [[Val.str "S", Val.num 1, Val.num 0],
           [Val.str "S", Val.num 0, Val.num 100000000]]⟩ 0 "S" 5) 2
     ratSub
        (ratDiv (ratSum (L.drop (L.length / 2)))
          (natToRat (L.length - L.length / 2)))
        (ratDiv (ratSum (L.take (L.length / 2))) (natToRat (L.length / 2)))
       = 100000000) := by
  decide

set_option maxRecDepth 4000 in
/-- Witness for the amended C8: a window `[1e8, 0]` whose first-half mean is
non-zero, so momentum is the difference of half-means, `-1e8`. -/
theorem calculateTrendStrength_amended_witness :
    calculateTrendStrength
        ⟨["sector_name", "date", "main_inflow"],
          [[Val.str "S", Val.num 1, Val.num 100000000],
           [Val.str "S", Val.num 0, Val.num 0]]⟩ "S" 5
      = { trend_score := -10, trend_direction := "neutral",
          avg_inflow := 50000000, consistency := mkRat 1 2,
          momentum := -100000000, error := none, data_points := some 2 } := by
  rw [calculateTrendStrength_amended
    ⟨["sector_name", "date", "main_inflow"],
      [[Val.str "S", Val.num 1, Val.num 100000000],
       [Val.str "S", Val.num 0, Val.num 0]]⟩ "S" 5 0 2
    (by decide) (by decide) (by decide)]
  decide

/-! ## Claim C7: prior-trading-date computation

(`SectorAnalyzer.get_last_trading_date`, analyzer.py lines 169-189, and
`MultiMarketScheduler._get_last_trade_date`, multi_market_scheduler.py lines
318-337.)

Dates are modelled as integer day numbers.  The `YYYY-MM-DD` /
`YYYYMMDD` string formatting and parsing around the arithmetic is a
bijective encoding and is elided.  The day numbering is anchored so that
`weekday` agrees with Python's `datetime.weekday()` (Monday = 0 … Sunday =
6): day 0 is a Thursday, as for the Unix epoch. -/

/-- Python's `date.weekday()`: Monday = 0 … Sunday = 6. -/
def weekday (d : ℤ) : ℤ := (d + 3) % 7

/-- The backward walk `for i in range(1, 10): if (d - i).weekday() < 5`. -/
def tradeWalkFind (d : ℤ) : Option Nat :=
  (List.range' 1 9).find? (fun i => decide (weekday (d - Int.ofNat i) < 5))

/-- Embedding of `SectorAnalyzer.get_last_trading_date`: the backward walk, falling back
to `d - 1` if no weekday is found within 9 days (unreachable). -/
def getLastTradingDate (d : ℤ) : ℤ :=
  match tradeWalkFind d with
  | some i => d - Int.ofNat i
  | none => d - 1

/-- Embedding of `MultiMarketScheduler._get_last_trade_date`: the US market takes 3 days
back on Mondays and 1 day otherwise; every other market uses the backward
walk (whose leftover loop variable, `d - 9`, is the fallback). -/
def schedLastTradeDate (market : String) (d : ℤ) : ℤ :=
  if market = "us" then (if weekday d = 0 then d - 3 else d - 1)
  else
    match tradeWalkFind d with
    | some i => d - Int.ofNat i
    | none => d - 9

theorem tradeWalkFind_eq (d : ℤ) :
    tradeWalkFind d
      = some (if weekday d = 0 then 3 else if weekday d = 6 then 2 else 1) := by
  have hlo : 0 ≤ weekday d := Int.emod_nonneg _ (by norm_num)
  have hhi : weekday d < 7 := Int.emod_lt_of_pos _ (by norm_num)
  unfold tradeWalkFind
  rw [show List.range' 1 9 = [1, 2, 3, 4, 5, 6, 7, 8, 9] from rfl]
  have hcase : weekday d = 0 ∨ weekday d = 1 ∨ weekday d = 2 ∨ weekday d = 3 ∨
      weekday d = 4 ∨ weekday d = 5 ∨ weekday d = 6 := by omega
  rcases hcase with hk | hk | hk | hk | hk | hk | hk
  · have e1 : weekday (d - 1) = 6 := by
      unfold weekday at hk ⊢
      omega
    have e2 : weekday (d - 2) = 5 := by
      unfold weekday at hk ⊢
      omega
    have e3 : weekday (d - 3) = 4 := by
      unfold weekday at hk ⊢
      omega
    simp [List.find?, e1, e2, e3, hk]
  · have e1 : weekday (d - 1) = 0 := by
      unfold weekday at hk ⊢
      omega
    simp [List.find?, e1, hk]
  · have e1 : weekday (d - 1) = 1 := by
      unfold weekday at hk ⊢
      omega
    simp [List.find?, e1, hk]
  · have e1 : weekday (d - 1) = 2 := by
      unfold weekday at hk ⊢
      omega
    simp [List.find?, e1, hk]
  · have e1 : weekday (d - 1) = 3 := by
      unfold weekday at hk ⊢
      omega
    simp [List.find?, e1, hk]
  · have e1 : weekday (d - 1) = 4 := by
      unfold weekday at hk ⊢
      omega
    simp [List.find?, e1, hk]
  · have e1 : weekday (d - 1) = 5 := by
      unfold weekday at hk ⊢
      omega
    have e2 : weekday (d - 2) = 4 := by
      unfold weekday at hk ⊢
      omega
    simp [List.find?, e1, e2, hk]

theorem getLastTradingDate_closed (d : ℤ) :
    getLastTradingDate d
      = if weekday d = 0 then d - 3 else if weekday d = 6 then d - 2
        else d - 1 := by
  unfold getLastTradingDate
  rw [tradeWalkFind_eq]
  split_ifs <;> norm_num

theorem schedLastTradeDate_closed (d : ℤ) (market : String)
    (hm : market ≠ "us") :
    schedLastTradeDate market d
      = if weekday d = 0 then d - 3 else if weekday d = 6 then d - 2
        else d - 1 := by
  unfold schedLastTradeDate
  rw [if_neg hm, tradeWalkFind_eq]
  split_ifs <;> norm_num

/-- C7: for the domestic and Hong Kong markets (both the scheduler's and the
analyzer's walk), the prior trading date is the closest strictly earlier day
whose weekday is Monday–Friday (`weekday < 5`), reached within the walk's
9-day bound; for the US market it is 3 days back on a Monday and 1 day back
otherwise. -/
theorem lastTradeDate_spec (d : ℤ) (market : String)
    (hm : market = "a_share" ∨ market = "hk") :
    (schedLastTradeDate market d < d ∧
      d - 9 ≤ schedLastTradeDate market d ∧
      weekday (schedLastTradeDate market d) < 5 ∧
      0 ≤ weekday (schedLastTradeDate market d) ∧
      (∀ e : ℤ, schedLastTradeDate market d < e → e < d →
        ¬ (weekday e < 5))) ∧
    getLastTradingDate d = schedLastTradeDate market d ∧
    schedLastTradeDate "us" d = (if weekday d = 0 then d - 3 else d - 1) := by
  have hm' : market ≠ "us" := by
    rcases hm with rfl | rfl <;> decide
  have hc := schedLastTradeDate_closed d market hm'
  have hlo : 0 ≤ weekday d := Int.emod_nonneg _ (by norm_num)
  have hhi : weekday d < 7 := Int.emod_lt_of_pos _ (by norm_num)
  refine ⟨⟨?_, ?_, ?_, ?_, ?_⟩, ?_, ?_⟩
  · rw [hc]
    split_ifs <;> omega
  · rw [hc]
    split_ifs <;> omega
  · rw [hc]
    unfold weekday at *
    split_ifs <;> omega
  · rw [hc]
    unfold weekday at *
    split_ifs <;> omega
  · intro e h1 h2
    rw [hc] at h1
    unfold weekday at *
    split_ifs at h1 <;> omega
  · rw [hc, getLastTradingDate_closed]
  · unfold schedLastTradeDate
    rw [if_pos rfl]

/-- Witness for C7 at a concrete Monday (day 4; day 0 is a Thursday):
domestic prior date is the preceding Friday (3 days back), as is the US
rule's. -/
theorem lastTradeDate_spec_witness :
    weekday 4 = 0 ∧
    schedLastTradeDate "a_share" 4 = 1 ∧ weekday 1 = 4 ∧
    getLastTradingDate 4 = 1 ∧
    schedLastTradeDate "us" 4 = 1 := by
  have h := lastTradeDate_spec 4 "a_share" (Or.inl rfl)
  refine ⟨by decide, ?_, by decide, ?_, ?_⟩
  · have h1 := h.1.1
    have h2 := h.1.2.1
    have h3 := h.1.2.2.1
    have h5 := h.1.2.2.2.2
    by_contra hne
    have hw : schedLastTradeDate "a_share" 4 < 1 ∨
        1 < schedLastTradeDate "a_share" 4 := by omega
    rcases hw with hw | hw
    · exact (h5 1 hw (by norm_num)) (by decide)
    · have : ¬ (weekday (schedLastTradeDate "a_share" 4) < 5) := by
        have hv : schedLastTradeDate "a_share" 4 = 2 ∨
            schedLastTradeDate "a_share" 4 = 3 := by omega
        rcases hv with hv | hv <;> rw [hv] <;> decide
      exact this h3
  · rw [h.2.1]
    have h1 := h.1.1
    have h2 := h.1.2.1
    have h3 := h.1.2.2.1
    have h5 := h.1.2.2.2.2
    by_contra hne
    have hw : schedLastTradeDate "a_share" 4 < 1 ∨
        1 < schedLastTradeDate "a_share" 4 := by omega
    rcases hw with hw | hw
    · exact (h5 1 hw (by norm_num)) (by decide)
    · have : ¬ (weekday (schedLastTradeDate "a_share" 4) < 5) := by
        have hv : schedLastTradeDate "a_share" 4 = 2 ∨
            schedLastTradeDate "a_share" 4 = 3 := by omega
        rcases hv with hv | hv <;> rw [hv] <;> decide
      exact this h3
  · rw [h.2.2]
    decide

/-! ## Claim C3: snapshot store round trip

(`_save_market_snapshot` / `_load_market_snapshot`,
multi_market_scheduler.py lines 290-316, and `save_snapshot` /
`load_snapshot`, analyzer.py lines 118-167.)

The file system is a map from file names to file contents; a CSV file is a
character list: the header line and one line per row, lines joined by
newline and fields by comma (`to_csv(index=False)` / `read_csv`).  Cell
serialization is modelled for integer-valued numbers and plain strings; the
claim's hypothesis "values survive tabular serialization" is the `cellOK`
predicate. -/

/-- Join parts with a separator character. -/
def joinSep (c : Char) : List (List Char) → List Char
  | [] => []
  | [p] => p
  | p :: q :: rest => p ++ c :: joinSep c (q :: rest)

/-- Split a character list at a separator character. -/
def splitSep (c : Char) : List Char → List (List Char)
  | [] => [[]]
  | x :: xs =>
    if x = c then [] :: splitSep c xs
    else
      match splitSep c xs with
      | [] => [[x]]
      | p :: ps => (x :: p) :: ps

theorem splitSep_ne_nil (c : Char) : ∀ l : List Char, splitSep c l ≠ []
  | [] => by simp [splitSep]
  | x :: xs => by
    simp only [splitSep]
    split
    · simp
    · split
      · simp
      · simp

theorem splitSep_no_sep (c : Char) :
    ∀ p : List Char, c ∉ p → splitSep c p = [p]
  | [], _ => rfl
  | x :: xs, h => by
    have hx : ¬ (x = c) := fun hxc => h (hxc ▸ List.mem_cons_self x xs)
    have ih := splitSep_no_sep c xs (fun hc => h (List.mem_cons_of_mem x hc))
    simp only [splitSep, if_neg hx, ih]

theorem splitSep_append (c : Char) :
    ∀ (p t : List Char), c ∉ p →
      splitSep c (p ++ c :: t) = p :: splitSep c t
  | [], t, _ => by simp [splitSep]
  | x :: p, t, h => by
    have hx : ¬ (x = c) := fun hxc => h (hxc ▸ List.mem_cons_self x p)
    have ih := splitSep_append c p t (fun hc => h (List.mem_cons_of_mem x hc))
    simp only [List.cons_append, splitSep, if_neg hx, List.append_eq, ih]

theorem splitSep_joinSep (c : Char) :
    ∀ parts : List (List Char), parts ≠ [] → (∀ p ∈ parts, c ∉ p) →
      splitSep c (joinSep c parts) = parts
  | [], h, _ => absurd rfl h
  | [p], _, hp => by
    simp only [joinSep]
    exact splitSep_no_sep c p (hp p (List.mem_cons_self p []))
  | p :: q :: rest, _, hp => by
    have ih := splitSep_joinSep c (q :: rest) (by simp)
      (fun x hx => hp x (List.mem_cons_of_mem p hx))
    simp only [joinSep]
    rw [splitSep_append c p (joinSep c (q :: rest))
      (hp p (List.mem_cons_self p _)), ih]

theorem mem_joinSep (c x : Char) :
    ∀ parts : List (List Char), x ∈ joinSep c parts →
      x = c ∨ ∃ p ∈ parts, x ∈ p
  | [], h => absurd h (by simp [joinSep])
  | [p], h => Or.inr ⟨p, List.mem_cons_self p [], h⟩
  | p :: q :: rest, h => by
    simp only [joinSep] at h
    rcases List.mem_append.mp h with h1 | h1
    · exact Or.inr ⟨p, List.mem_cons_self p _, h1⟩
    · rcases List.mem_cons.mp h1 with rfl | h2
      · exact Or.inl rfl
      · rcases mem_joinSep c x (q :: rest) h2 with h3 | ⟨w, hw, hxw⟩
        · exact Or.inl h3
        · exact Or.inr ⟨w, List.mem_cons_of_mem p hw, hxw⟩

/-- Decimal digit accumulator for the integer parser. -/
def parseDigitsAux : List Char → Nat → Option Nat
  | [], acc => some acc
  | ch :: rest, acc =>
    if 48 ≤ ch.toNat && ch.toNat ≤ 57 then
      parseDigitsAux rest (acc * 10 + (ch.toNat - 48))
    else none

/-- Integer parser on strings (the model of `read_csv`'s integer dtype
inference). -/
def strToInt? (s : String) : Option ℤ :=
  match s.data with
  | [] => none
  | '-' :: rest =>
    match rest with
    | [] => none
    | _ :: _ => (parseDigitsAux rest 0).map (fun n => -(Int.ofNat n))
  | ds => (parseDigitsAux ds 0).map Int.ofNat

/-- Serialization of one cell: integers print as decimal, strings as
themselves, `NaN` as the empty field (pandas conventions).  Non-integer
rationals render as exact fractions, which the parser does not read back:
they fall outside the modelled survivable values. -/
def encodeCell : Val → String
  | Val.num q =>
    if q.den = 1 then toString q.num
    else toString q.num ++ "/" ++ toString q.den
  | Val.str s => s
  | Val.na => ""

/-- Parsing of one field: empty reads as `NaN`, integers as numbers,
anything else as a string. -/
def decodeCell (s : String) : Val :=
  if s = "" then Val.na
  else
    match strToInt? s with
    | some n => Val.num (mkRat n 1)
    | none => Val.str s

/-- The claim's "values survive tabular (CSV) serialization": the cell
round-trips and its rendering contains no field or line separator. -/
def cellOK (v : Val) : Prop :=
  decodeCell (encodeCell v) = v ∧ ',' ∉ (encodeCell v).data ∧
    '\n' ∉ (encodeCell v).data

instance (v : Val) : Decidable (cellOK v) := by
  unfold cellOK
  infer_instance

/-- One row of the CSV body. -/
def encodeRow (r : List Val) : List Char :=
  joinSep ',' (r.map (fun v => (encodeCell v).data))

/-- Model of `df.to_csv(index=False)`: header line then one line per row. -/
def encodeCSV (df : DataFrame) : List Char :=
  joinSep '\n' (joinSep ',' (df.cols.map String.data) :: df.rows.map encodeRow)

/-- Model of `pd.read_csv`: split lines, first line is the header, fields split on
commas. -/
def decodeCSV (content : List Char) : DataFrame :=
  match splitSep '\n' content with
  | [] => emptyDF
  | h :: rest =>
    ⟨(splitSep ',' h).map (fun cs => String.mk cs),
     rest.map (fun line =>
       (splitSep ',' line).map (fun cs => decodeCell (String.mk cs)))⟩

theorem string_mk_data (s : String) : String.mk s.data = s := rfl

theorem decodeCSV_encodeCSV (df : DataFrame)
    (hcols : df.cols ≠ [])
    (hcolok : ∀ s ∈ df.cols, ',' ∉ s.data ∧ '\n' ∉ s.data)
    (hrowsne : ∀ r ∈ df.rows, r ≠ [])
    (hcells : ∀ r ∈ df.rows, ∀ v ∈ r, cellOK v) :
    decodeCSV (encodeCSV df) = df := by
  have hnl_header : '\n' ∉ joinSep ',' (df.cols.map String.data) := by
    intro hmem
    rcases mem_joinSep ',' '\n' _ hmem with h | ⟨p, hp, hxp⟩
    · exact absurd h (by decide)
    · obtain ⟨s, hs, rfl⟩ := List.mem_map.mp hp
      exact (hcolok s hs).2 hxp
  have hnl_row : ∀ line ∈ df.rows.map encodeRow, '\n' ∉ line := by
    intro line hline hmem
    obtain ⟨r, hr, rfl⟩ := List.mem_map.mp hline
    rcases mem_joinSep ',' '\n' _ hmem with h | ⟨p, hp, hxp⟩
    · exact absurd h (by decide)
    · obtain ⟨v, hv, rfl⟩ := List.mem_map.mp hp
      exact ((hcells r hr v hv).2.2) hxp
  have hsplit : splitSep '\n' (encodeCSV df)
      = joinSep ',' (df.cols.map String.data) :: df.rows.map encodeRow := by
    unfold encodeCSV
    exact splitSep_joinSep '\n' _ (by simp) (by
      intro p hp
      rcases List.mem_cons.mp hp with rfl | hp'
      · exact hnl_header
      · exact hnl_row p hp')
  unfold decodeCSV
  rw [hsplit]
  have hheader : (splitSep ',' (joinSep ',' (df.cols.map String.data))).map
      (fun cs => String.mk cs) = df.cols := by
    rw [splitSep_joinSep ',' (df.cols.map String.data)
      (by simpa using hcols)
      (by
        intro p hp
        obtain ⟨s, hs, rfl⟩ := List.mem_map.mp hp
        exact (hcolok s hs).1)]
    rw [List.map_map]
    have : ((fun cs => String.mk cs) ∘ String.data) = id := by
      funext s
      exact string_mk_data s
    rw [this, List.map_id]
  have hbody : (df.rows.map encodeRow).map (fun line =>
      (splitSep ',' line).map (fun cs => decodeCell (String.mk cs)))
      = df.rows := by
    rw [List.map_map]
    have hcongr : ∀ r ∈ df.rows,
        ((fun line => (splitSep ',' line).map
          (fun cs => decodeCell (String.mk cs))) ∘ encodeRow) r = r := by
      intro r hr
      show (splitSep ',' (encodeRow r)).map
        (fun cs => decodeCell (String.mk cs)) = r
      unfold encodeRow
      rw [splitSep_joinSep ',' (r.map (fun v => (encodeCell v).data))
        (by simpa using hrowsne r hr)
        (by
          intro p hp
          obtain ⟨v, hv, rfl⟩ := List.mem_map.mp hp
          exact (hcells r hr v hv).2.1)]
      rw [List.map_map]
      have : ∀ v ∈ r, ((fun cs => decodeCell (String.mk cs)) ∘
          (fun v => (encodeCell v).data)) v = id v := by
        intro v hv
        show decodeCell (String.mk ((encodeCell v).data)) = v
        rw [string_mk_data]
        exact (hcells r hr v hv).1
      rw [List.map_congr_left this]
      exact List.map_id r
    rw [List.map_congr_left hcongr]
    exact List.map_id df.rows
  show (⟨(splitSep ',' (joinSep ',' (df.cols.map String.data))).map
      (fun cs => String.mk cs),
    (df.rows.map encodeRow).map (fun line =>
      (splitSep ',' line).map (fun cs => decodeCell (String.mk cs)))⟩
      : DataFrame) = df
  rw [hheader, hbody]

/-- The file system: a map from file names to CSV contents. -/
def FS : Type := String → Option (List Char)

/-- Model of `date_str.replace('-', '')`: strip dashes (date canonicalization). -/
def stripDashes (s : String) : String :=
  String.mk (s.data.filter (fun ch => ch ≠ '-'))

/-- The file name `f"{market}_sector_flow_{date_str.replace('-', '')}.csv"`. -/
def marketSnapshotName (market date : String) : String :=
  market ++ "_sector_flow_" ++ stripDashes date ++ ".csv"

/-- Embedding of `MultiMarketScheduler._save_market_snapshot`. -/
def saveMarketSnapshot (fs : FS) (df : DataFrame) (date market : String) :
    FS :=
  fun k =>
    if k = marketSnapshotName market date then some (encodeCSV df) else fs k

/-- Embedding of `MultiMarketScheduler._load_market_snapshot` (missing file reads as
`None`). -/
def loadMarketSnapshot (fs : FS) (date market : String) : Option DataFrame :=
  match fs (marketSnapshotName market date) with
  | none => none
  | some content => some (decodeCSV content)

/-- The file name `f"sector_flow_{date_str.replace('-', '')}.csv"` (legacy single-market
analyzer store). -/
def snapshotName (date : String) : String :=
  "sector_flow_" ++ stripDashes date ++ ".csv"

/-- Embedding of `SectorAnalyzer.save_snapshot`. -/
def saveSnapshot (fs : FS) (df : DataFrame) (date : String) : FS :=
  fun k => if k = snapshotName date then some (encodeCSV df) else fs k

/-- Embedding of `SectorAnalyzer.load_snapshot`. -/
def loadSnapshot (fs : FS) (date : String) : Option DataFrame :=
  match fs (snapshotName date) with
  | none => none
  | some content => some (decodeCSV content)

/-- C3: for a table of survivable values, saving under one date format and
loading under the other (same market) returns the table itself — in
particular the row count and the set of `sector_name` values are those of
the saved table — and both date formats resolve to the same storage key.
Proved for the market-keyed store and the legacy analyzer store alike. -/
theorem snapshot_roundtrip (fs : FS) (df : DataFrame) (market d1 d2 : String)
    (hd : stripDashes d1 = stripDashes d2)
    (hcols : df.cols ≠ [])
    (hcolok : ∀ s ∈ df.cols, ',' ∉ s.data ∧ '\n' ∉ s.data)
    (hrowsne : ∀ r ∈ df.rows, r ≠ [])
    (hcells : ∀ r ∈ df.rows, ∀ v ∈ r, cellOK v) :
    marketSnapshotName market d1 = marketSnapshotName market d2 ∧
    loadMarketSnapshot (saveMarketSnapshot fs df d1 market) d2 market
      = some df ∧
    snapshotName d1 = snapshotName d2 ∧
    loadSnapshot (saveSnapshot fs df d1) d2 = some df := by
  have hkey : marketSnapshotName market d1 = marketSnapshotName market d2 := by
    unfold marketSnapshotName
    rw [hd]
  have hkey2 : snapshotName d1 = snapshotName d2 := by
    unfold snapshotName
    rw [hd]
  refine ⟨hkey, ?_, hkey2, ?_⟩
  · unfold loadMarketSnapshot saveMarketSnapshot
    rw [← hkey, if_pos rfl]
    show some (decodeCSV (encodeCSV df)) = some df
    rw [decodeCSV_encodeCSV df hcols hcolok hrowsne hcells]
  · unfold loadSnapshot saveSnapshot
    rw [← hkey2, if_pos rfl]
    show some (decodeCSV (encodeCSV df)) = some df
    rw [decodeCSV_encodeCSV df hcols hcolok hrowsne hcells]

/-- Witness for C3: a two-row table saved under `2024-02-15` and loaded
under `20240215`. -/
theorem snapshot_roundtrip_witness :
    loadMarketSnapshot
      (saveMarketSnapshot (fun _ => none)
        ⟨["sector_name", "main_inflow"],
          [[Val.str "AI", Val.num 5], [Val.str "Bank", Val.num (-3)]]⟩
        "2024-02-15" "us")
      "20240215" "us"
      = some ⟨["sector_name", "main_inflow"],
          [[Val.str "AI", Val.num 5], [Val.str "Bank", Val.num (-3)]]⟩ :=
  (snapshot_roundtrip (fun _ => none)
    ⟨["sector_name", "main_inflow"],
      [[Val.str "AI", Val.num 5], [Val.str "Bank", Val.num (-3)]]⟩
    "us" "2024-02-15" "20240215"
    (by decide) (by decide) (by decide) (by decide) (by decide)).2.1

/-! ## The multi-market scheduler (multi_market_scheduler.py)

`run_single_market` orchestrates one market's cycle inside one big
`try/except`.  Each fallible collaborator call (fetcher creation, fetch,
ranking, summary, snapshot save, prior-snapshot load, re-rank, rotation
detection) is abstracted as an environment-supplied outcome
(`Except String _`); `_generate_market_charts` has its own internal
`try/except` that only logs a failure and returns the chart files collected
before it, so its outcome is a file list plus an optional swallowed
error. -/

/-- One market's schedule entry. -/
structure MarketSched where
  market : String
  enabled : Bool
  schedule_time : String
  days_of_week : String
deriving DecidableEq

/-- The result dict of `run_single_market` (plus the `skipped` key used by
`run_all_markets`' skip marker). -/
structure JobResult where
  market : String
  success : Bool
  top10 : Option DataFrame
  full_data : Option DataFrame
  rotation_signals : List Signal
  error : Option String
  chart_files : List String
  skipped : Bool
deriving DecidableEq

/-- The initial result dict of `run_single_market`. -/
def baseResult (market : String) : JobResult :=
  { market := market, success := false, top10 := none, full_data := none,
    rotation_signals := [], error := none, chart_files := [],
    skipped := false }

/-- The outcomes of one run's collaborator calls. -/
structure JobEnv where
  createFetcher : Except String Unit
  fetchData : Except String (Option DataFrame)
  rankToday : Except String DataFrame
  summary : Except String String
  saveSnap : Except String Unit
  loadSnap : Except String (Option DataFrame)
  rankYesterday : Except String DataFrame
  detect : Except String (List Signal)
  hasChartGen : Bool
  chartFiles : List String
  chartError : Option String

/-- Model of `_generate_market_charts` wrapped in `run_single_market` step 5: charts
are only generated when a chart generator is configured; the helper's
internal `try/except` swallows `chartError`, returning the files collected
before any failure. -/
def chartStep (env : JobEnv) : List String :=
  if env.hasChartGen then env.chartFiles else []

/-- Embedding of `MultiMarketScheduler.run_single_market`: the `try` body accretes
fields onto the result dict; the blanket `except` catches any raised
exception and stores its message into `error`, returning the partially
filled result. -/
def runSingleMarket (env : JobEnv) (market : String) : JobResult :=
  let r0 := baseResult market
  match env.createFetcher with
  | Except.error e => { r0 with error := some e }
  | Except.ok _ =>
    match env.fetchData with
    | Except.error e => { r0 with error := some e }
    | Except.ok none => { r0 with error := some "获取数据为空" }
    | Except.ok (some df) =>
      if df.isEmptyDF then { r0 with error := some "获取数据为空" }
      else
        let r1 := { r0 with full_data := some df }
        match env.rankToday with
        | Except.error e => { r1 with error := some e }
        | Except.ok top10 =>
          let r2 := { r1 with top10 := some top10 }
          match env.summary with
          | Except.error e => { r2 with error := some e }
          | Except.ok _ =>
            match env.saveSnap with
            | Except.error e => { r2 with error := some e }
            | Except.ok _ =>
              match env.loadSnap with
              | Except.error e => { r2 with error := some e }
              | Except.ok none =>
                { r2 with chart_files := chartStep env, success := true }
              | Except.ok (some _) =>
                match env.rankYesterday with
                | Except.error e => { r2 with error := some e }
                | Except.ok _ =>
                  match env.detect with
                  | Except.error e => { r2 with error := some e }
                  | Except.ok sigs =>
                    { r2 with
                        rotation_signals := sigs
                        chart_files := chartStep env
                        success := true }

/-- All steps of the `try` body succeed (fetch also returning a non-empty
frame); rotation steps only run when a prior snapshot was found. -/
def allStepsOk (env : JobEnv) : Prop :=
  env.createFetcher = Except.ok () ∧
  (∃ df, env.fetchData = Except.ok (some df) ∧ df.isEmptyDF = false) ∧
  (∃ t, env.rankToday = Except.ok t) ∧
  (∃ s, env.summary = Except.ok s) ∧
  env.saveSnap = Except.ok () ∧
  (env.loadSnap = Except.ok none ∨
    (∃ y, env.loadSnap = Except.ok (some y) ∧
      (∃ t2, env.rankYesterday = Except.ok t2) ∧
      (∃ sg, env.detect = Except.ok sg)))

/-! ## Claim C5 (amended): the job never throws; every failure of a
pipeline step is captured into `error` with `success = false` — with the
exception of chart generation, whose failures are swallowed inside
`_generate_market_charts` and leave the job's success and error fields
untouched. -/

/-- Amended C5: (a) whenever the job is unsuccessful its `error` field
holds a message; (b) the job succeeds exactly when every step of the `try`
body succeeded (with a non-empty fetch, rotation steps running only when a
prior snapshot exists); (c) the result is entirely independent of any
swallowed chart-generation exception. -/
theorem runSingleMarket_amended (env : JobEnv) (market : String) :
    ((runSingleMarket env market).success = false →
      ∃ e, (runSingleMarket env market).error = some e) ∧
    ((runSingleMarket env market).success = true ↔ allStepsOk env) ∧
    (∀ ce : Option String,
      runSingleMarket { env with chartError := ce } market
        = runSingleMarket env market) := by
  obtain ⟨cf, fd, rt, sm, sv, ls, ry, dt, hcg, cfs, ce⟩ := env
  refine ⟨?_, ?_, fun _ => rfl⟩
  · rcases cf with e | ⟨⟩
    · exact fun _ => ⟨e, rfl⟩
    · rcases fd with e | odf
      · exact fun _ => ⟨e, rfl⟩
      · rcases odf with _ | df
        · exact fun _ => ⟨"获取数据为空", rfl⟩
        · by_cases hdf : df.isEmptyDF = true
          · exact fun _ => ⟨"获取数据为空", by simp [runSingleMarket, hdf]⟩
          · rcases rt with e | t
            · exact fun _ => ⟨e, by simp [runSingleMarket, hdf]⟩
            · rcases sm with e | s
              · exact fun _ => ⟨e, by simp [runSingleMarket, hdf]⟩
              · rcases sv with e | ⟨⟩
                · exact fun _ => ⟨e, by simp [runSingleMarket, hdf]⟩
                · rcases ls with e | ols
                  · exact fun _ => ⟨e, by simp [runSingleMarket, hdf]⟩
                  · rcases ols with _ | y
                    · intro hs
                      simp [runSingleMarket, hdf] at hs
                    · rcases ry with e | t2
                      · exact fun _ => ⟨e, by simp [runSingleMarket, hdf]⟩
                      · rcases dt with e | sg
                        · exact fun _ => ⟨e, by simp [runSingleMarket, hdf]⟩
                        · intro hs
                          simp [runSingleMarket, hdf] at hs
  · rcases cf with e | ⟨⟩
    · simp [runSingleMarket, allStepsOk, baseResult]
    · rcases fd with e | odf
      · simp [runSingleMarket, allStepsOk, baseResult]
      · rcases odf with _ | df
        · simp [runSingleMarket, allStepsOk, baseResult]
        · by_cases hdf : df.isEmptyDF = true
          · simp [runSingleMarket, allStepsOk, baseResult, hdf]
          · have hdf' : df.isEmptyDF = false := by simpa using hdf
            rcases rt with e | t
            · simp [runSingleMarket, allStepsOk, baseResult, hdf']
            · rcases sm with e | s
              · simp [runSingleMarket, allStepsOk, baseResult, hdf']
              · rcases sv with e | ⟨⟩
                · simp [runSingleMarket, allStepsOk, baseResult, hdf']
                · rcases ls with e | ols
                  · simp [runSingleMarket, allStepsOk, baseResult, hdf']
                  · rcases ols with _ | y
                    · simp [runSingleMarket, allStepsOk, baseResult, hdf']
                    · rcases ry with e | t2
                      · simp [runSingleMarket, allStepsOk, baseResult, hdf']
                      · rcases dt with e | sg
                        · simp [runSingleMarket, allStepsOk, baseResult, hdf']
                        · simp [runSingleMarket, allStepsOk, baseResult, hdf']

/-- A one-row frame used by the concrete scheduler environments. -/
def dfOneRow : DataFrame := ⟨["sector_name"], [[Val.str "A"]]⟩

/-- An environment in which every pipeline step succeeds. -/
def envAllOk : JobEnv :=
  { createFetcher := Except.ok (), fetchData := Except.ok (some dfOneRow),
    rankToday := Except.ok dfOneRow, summary := Except.ok "TOP3",
    saveSnap := Except.ok (), loadSnap := Except.ok none,
    rankYesterday := Except.ok emptyDF, detect := Except.ok [],
    hasChartGen := false, chartFiles := [], chartError := none }

/-- Witness for the amended C5: an all-successful run reports success, and
a swallowed chart error changes nothing. -/
theorem runSingleMarket_amended_witness :
    (runSingleMarket envAllOk "hk").success = true ∧
    runSingleMarket { envAllOk with chartError := some "图表生成失败" } "hk"
      = runSingleMarket envAllOk "hk" :=
  ⟨(runSingleMarket_amended envAllOk "hk").2.1.mpr
      ⟨rfl, ⟨dfOneRow, rfl, rfl⟩, ⟨dfOneRow, rfl⟩, ⟨"TOP3", rfl⟩, rfl,
        Or.inl rfl⟩,
    (runSingleMarket_amended envAllOk "hk").2.2 (some "图表生成失败")⟩

/-- Counterexample to C5 as stated: a run whose chart generation raises
(`chartError` is a swallowed exception of `_generate_market_charts`) still
ends with `success = true` and no recorded error — chart-generation
exceptions are not captured into the result's error field. -/
theorem runSingleMarket_chart_counterexample :
    (runSingleMarket
      { envAllOk with
          hasChartGen := true
          chartFiles := ["pie.png"]
          chartError := some "生成图表失败" } "us").success = true ∧
    (runSingleMarket
      { envAllOk with
          hasChartGen := true
          chartFiles := ["pie.png"]
          chartError := some "生成图表失败" } "us").error = none ∧
    ({ envAllOk with
        hasChartGen := true
        chartFiles := ["pie.png"]
        chartError := some "生成图表失败" } : JobEnv).chartError
      = some "生成图表失败" ∧
    (runSingleMarket
      { envAllOk with
          hasChartGen := true
          chartFiles := ["pie.png"]
          chartError := some "生成图表失败" } "us").chart_files
      = ["pie.png"] :=
  ⟨rfl, rfl, rfl, rfl⟩

/-! ## Claim C6 (amended): a snapshot-save failure propagates out of the
save helper but is caught by the per-market job's blanket `except` and
recorded into `error` with `success = false`, exactly like a fetch
failure. -/

/-- Amended C6: when every step before the save succeeds and the save
raises `e`, the job returns a result (it does not re-raise) whose `error`
is `e` and whose `success` is false. -/
theorem saveFailure_captured (env : JobEnv) (market e : String)
    (hsv : env.saveSnap = Except.error e)
    (hcf : env.createFetcher = Except.ok ())
    (hfd : ∃ df, env.fetchData = Except.ok (some df) ∧ df.isEmptyDF = false)
    (hrt : ∃ t, env.rankToday = Except.ok t)
    (hsm : ∃ s, env.summary = Except.ok s) :
    (runSingleMarket env market).success = false ∧
    (runSingleMarket env market).error = some e := by
  obtain ⟨df, hfd1, hdf⟩ := hfd
  obtain ⟨t, hrt1⟩ := hrt
  obtain ⟨s, hsm1⟩ := hsm
  simp [runSingleMarket, hcf, hfd1, hdf, hrt1, hsm1, hsv, baseResult]

/-- Counterexample to C6 as stated: with the save raising, the job still
*returns* a `JobResult` — the exception is captured into `error` (the
partially filled fields are kept), not propagated to the caller. -/
theorem runSingleMarket_save_counterexample :
    runSingleMarket { envAllOk with saveSnap := Except.error "磁盘写入失败" }
        "a_share"
      = { market := "a_share", success := false, top10 := some dfOneRow,
          full_data := some dfOneRow, rotation_signals := [],
          error := some "磁盘写入失败", chart_files := [],
          skipped := false } :=
  rfl

/-- Witness for the amended C6 at the concrete save-failing environment. -/
theorem saveFailure_captured_witness :
    (runSingleMarket { envAllOk with saveSnap := Except.error "磁盘写入失败" }
        "a_share").success = false ∧
    (runSingleMarket { envAllOk with saveSnap := Except.error "磁盘写入失败" }
        "a_share").error = some "磁盘写入失败" :=
  saveFailure_captured
    { envAllOk with saveSnap := Except.error "磁盘写入失败" }
    "a_share" "磁盘写入失败" rfl rfl ⟨dfOneRow, rfl, rfl⟩ ⟨dfOneRow, rfl⟩
    ⟨"TOP3", rfl⟩

/-! ## Claim C4: `run_all_markets` / `run_once` -/

/-- The skip marker `{'market': m, 'success': False, 'skipped': True}`. -/
def skipMarker (m : String) : JobResult :=
  { baseResult m with skipped := true }

/-- Embedding of `MultiMarketScheduler.run_all_markets`: run each enabled market's job,
record a skip marker for each disabled one.  The job outcomes are
abstracted as `runJob`. -/
def runAllMarkets (schedules : List (String × MarketSched))
    (runJob : String → JobResult) : List (String × JobResult) :=
  schedules.map (fun p =>
    (p.1, if p.2.enabled then runJob p.2.market else skipMarker p.2.market))

/-- Embedding of `MultiMarketScheduler.run_once`: true iff any entry reports success
(the report-generation side effect is elided). -/
def runOnce (schedules : List (String × MarketSched))
    (runJob : String → JobResult) : Bool :=
  (runAllMarkets schedules runJob).any (fun p => p.2.success)

/-- C4: `run_once` returns true iff some enabled market's job succeeded; a
disabled market is never run and contributes the skip marker
(`success = false`, `skipped = true`) independently of the job outcomes;
and changing one market's job outcome does not remove or alter any other
market's entry. -/
theorem runOnce_spec (schedules : List (String × MarketSched))
    (runJob runJob' : String → JobResult) (m0 : String)
    (hagree : ∀ m, m ≠ m0 → runJob m = runJob' m) :
    (runOnce schedules runJob = true ↔
      ∃ p ∈ schedules, p.2.enabled = true ∧
        (runJob p.2.market).success = true) ∧
    (∀ (i : Nat) (p : String × MarketSched), schedules[i]? = some p →
      p.2.enabled = false →
      (runAllMarkets schedules runJob)[i]?
        = some (p.1, skipMarker p.2.market)) ∧
    (∀ (i : Nat) (p : String × MarketSched), schedules[i]? = some p →
      p.2.market ≠ m0 →
      (runAllMarkets schedules runJob)[i]?
        = (runAllMarkets schedules runJob')[i]?) := by
  refine ⟨?_, ?_, ?_⟩
  · unfold runOnce runAllMarkets
    rw [List.any_eq_true]
    constructor
    · rintro ⟨x, hx, hxs⟩
      obtain ⟨p, hp, rfl⟩ := List.mem_map.mp hx
      by_cases hen : p.2.enabled
      · refine ⟨p, hp, hen, ?_⟩
        simpa [hen] using hxs
      · exfalso
        simp [hen, skipMarker, baseResult] at hxs
    · rintro ⟨p, hp, hen, hsucc⟩
      refine ⟨(p.1, if p.2.enabled then runJob p.2.market
        else skipMarker p.2.market), List.mem_map_of_mem _ hp, ?_⟩
      simpa [hen] using hsucc
  · intro i p hi hen
    unfold runAllMarkets
    rw [List.getElem?_map, hi, Option.map_some']
    simp [hen]
  · intro i p hi hne
    unfold runAllMarkets
    rw [List.getElem?_map, List.getElem?_map, hi, Option.map_some',
      Option.map_some']
    by_cases hen : p.2.enabled
    · simp [hen, hagree p.2.market hne]
    · simp [hen]

/-- Witness for C4: three enabled markets with outcomes
`[fail, success, fail]` give `run_once = true`; all failing gives `false`;
a disabled market contributes the skip marker. -/
theorem runOnce_spec_witness :
    runOnce
      [("a_share", ⟨"a_share", true, "15:05", "mon-fri"⟩),
       ("us", ⟨"us", true, "06:00", "tue-sat"⟩),
       ("hk", ⟨"hk", false, "16:05", "mon-fri"⟩)]
      (fun m => if m = "us" then { baseResult m with success := true }
        else { baseResult m with error := some "网络错误" }) = true ∧
    runOnce
      [("a_share", ⟨"a_share", true, "15:05", "mon-fri"⟩),
       ("us", ⟨"us", true, "06:00", "tue-sat"⟩),
       ("hk", ⟨"hk", false, "16:05", "mon-fri"⟩)]
      (fun m => { baseResult m with error := some "网络错误" }) = false ∧
    (runAllMarkets
      [("a_share", ⟨"a_share", true, "15:05", "mon-fri"⟩),
       ("us", ⟨"us", true, "06:00", "tue-sat"⟩),
       ("hk", ⟨"hk", false, "16:05", "mon-fri"⟩)]
      (fun m => if m = "us" then { baseResult m with success := true }
        else { baseResult m with error := some "网络错误" }))[2]?
      = some ("hk", skipMarker "hk") := by
  refine ⟨?_, by decide, ?_⟩
  · exact (runOnce_spec
      [("a_share", ⟨"a_share", true, "15:05", "mon-fri"⟩),
       ("us", ⟨"us", true, "06:00", "tue-sat"⟩),
       ("hk", ⟨"hk", false, "16:05", "mon-fri"⟩)]
      (fun m => if m = "us" then { baseResult m with success := true }
        else { baseResult m with error := some "网络错误" })
      (fun m => if m = "us" then { baseResult m with success := true }
        else { baseResult m with error := some "网络错误" })
      "zz" (fun _ _ => rfl)).1.mpr
      ⟨("us", ⟨"us", true, "06:00", "tue-sat"⟩), by decide, rfl, rfl⟩
  · exact (runOnce_spec
      [("a_share", ⟨"a_share", true, "15:05", "mon-fri"⟩),
       ("us", ⟨"us", true, "06:00", "tue-sat"⟩),
       ("hk", ⟨"hk", false, "16:05", "mon-fri"⟩)]
      (fun m => if m = "us" then { baseResult m with success := true }
        else { baseResult m with error := some "网络错误" })
      (fun m => if m = "us" then { baseResult m with success := true }
        else { baseResult m with error := some "网络错误" })
      "zz" (fun _ _ => rfl)).2.1 2
      ("hk", ⟨"hk", false, "16:05", "mon-fri"⟩) rfl rfl

end StockMonitor
